import Mathlib

/-!
Shallow embedding of the core logic of the AzureAI-Search-OpenAI-Lab
repository (CodeSamples/*.py): the embedding-provider adapter
(`get_embeddings` in generate_embeddings.py, line-for-line identical to
`VectorSearchClient.generate_embeddings` in vector_search_client.py), the
query reformulator (`extract_search_query` in
PromptFlows/extract_search_query.py), the three retrieval strategies of
`VectorSearchClient` (modelled as the search request each one sends to the
external index), the Flask `/api/search` handler (sample_web_app.py), the
batch uploader (`upload_documents.py`) and the offline embedding batch step
(`process_documents` in generate_embeddings.py).

Python strings are modelled as `List Char` (Python `len` counts code
points, as does `List.length`).  The float payload of embedding vectors is
never computed with — only created as literals and passed through — so the
scalar type is modelled as `Int`.  External services (the OpenAI embedding
endpoint and the Azure index) are modelled as oracle functions supplied as
arguments.
-/

/-- Scalar component of an embedding vector.  The source only ever builds
the literal `0.0` and passes provider-supplied values through, so an exact
type stands in for Python's float. -/
abbrev Scalar := Int

/-- An embedding vector. -/
abbrev Vec := List Scalar

/-- The fixed embedding dimensionality hard-coded in the source
(`[0.0] * 1536`). -/
def D : Nat := 1536

/-- `[0.0] * d` from the source. -/
def zeroVector (d : Nat) : Vec := List.replicate d 0

/-- Python `str` whitespace as used by `strip()`/`split()` on the ASCII
range: space, tab, newline, carriage return, vertical tab, form feed. -/
def pyIsSpace (c : Char) : Bool :=
  c = ' ' || c = '\t' || c = '\n' || c = '\r' || c = Char.ofNat 11 || c = Char.ofNat 12

/-- Python `s.strip()`: drop leading and trailing whitespace. -/
def pyStrip (s : List Char) : List Char :=
  ((s.dropWhile pyIsSpace).reverse.dropWhile pyIsSpace).reverse

/-- Python `s.lower()` on the ASCII range. -/
def pyLower (s : List Char) : List Char := s.map Char.toLower

/-- `startsWith p s` : the list `p` is an initial segment of `s`. -/
def startsWith : List Char → List Char → Bool
  | [], _ => true
  | _ :: _, [] => false
  | a :: p, b :: s => a = b && startsWith p s

/-- Python `needle in hay` (substring containment). -/
def pyContains (needle : List Char) : List Char → Bool
  | [] => needle.isEmpty
  | c :: t => startsWith needle (c :: t) || pyContains needle t

/-- Accumulator-based worker for Python `s.split()` (no arguments):
split on runs of whitespace, never producing empty tokens. -/
def pySplitAux : List Char → List Char → List (List Char)
  | [], acc => if acc.isEmpty then [] else [acc.reverse]
  | c :: t, acc =>
    if pyIsSpace c then
      if acc.isEmpty then pySplitAux t [] else acc.reverse :: pySplitAux t []
    else pySplitAux t (c :: acc)

/-- Python `s.split()` with no arguments. -/
def pySplit (s : List Char) : List (List Char) := pySplitAux s []

/-- The result of one call to the external embedding endpoint, as the
adapter observes it: either a response carrying a list `data` of embedding
records, or an exception (any failure inside the `try` block). -/
inductive ProviderResult where
  | ok (data : List Vec)
  | error (msg : List Char)
deriving DecidableEq

/-- The external embedding provider: text in, response out. -/
abbrev Provider := List Char → ProviderResult

/-- Everything observable about one `get_embeddings` call: the returned
vector, whether the external provider was invoked, the exact text
submitted to it (if any), and the diagnostic message printed on failure
(if any). -/
structure EmbedOutcome where
  vector : Vec
  providerCalled : Bool
  submitted : Option (List Char)
  diagnostic : Option (List Char)
deriving DecidableEq

/-- The diagnostic line `print(f"Error generating embeddings: {str(e)}")`. -/
def embedErrMsg (e : List Char) : List Char :=
  ("Error generating embeddings: ").toList ++ e

/-- The message of the IndexError Python raises for `response.data[0]`
when `data` is empty. -/
def indexErrorMsg : List Char := ("list index out of range").toList

/-- The truncation step of get_embeddings:
`if len(text) > 8000: text = text[:8000]`. -/
def pyTrunc (t : List Char) : List Char :=
  if t.length > 8000 then t.take 8000 else t

/-- `get_embeddings` from generate_embeddings.py (identical to
`VectorSearchClient.generate_embeddings` in vector_search_client.py).
The Python parameter `text` may be `None`, hence `Option`:

    if not text or text.strip() == "": return [0.0] * 1536
    if len(text) > 8000: text = text[:8000]
    try:
        response = client.embeddings.create(input=text, model=model)
        return response.data[0].embedding
    except Exception as e:
        print(f"Error generating embeddings: {str(e)}")
        return [0.0] * 1536
-/
def get_embeddings (provider : Provider) (text : Option (List Char)) : EmbedOutcome :=
  match text with
  | none => ⟨zeroVector D, false, none, none⟩
  | some t =>
    if t.isEmpty || (pyStrip t).isEmpty then ⟨zeroVector D, false, none, none⟩
    else
      match provider (pyTrunc t) with
      | .ok (v :: _) => ⟨v, true, some (pyTrunc t), none⟩
      | .ok [] => ⟨zeroVector D, true, some (pyTrunc t), some (embedErrMsg indexErrorMsg)⟩
      | .error e => ⟨zeroVector D, true, some (pyTrunc t), some (embedErrMsg e)⟩

/-- A chat message as the reformulator reads it: a dict with `role` and
`content` entries (both strings in every modelled history). -/
structure ChatMessage where
  role : List Char
  content : List Char
deriving DecidableEq

/-- The backward scan of extract_search_query.py lines 15-20:

    last_user_message = None
    for message in reversed(chat_history):
        if message.get("role") == "user":
            last_user_message = message.get("content")
            break
-/
def findLastUser (history : List ChatMessage) : Option (List Char) :=
  (history.reverse.find? (fun m => m.role = ("user").toList)).map (·.content)

/-- The needs-context test of extract_search_query.py line 14:

    len(user_query.split()) < 5 or "more" in user_query.lower()
                                or "elaborat" in user_query.lower()
-/
def needsContext (user_query : List Char) : Bool :=
  decide ((pySplit user_query).length < 5)
    || pyContains (("more").toList) (pyLower user_query)
    || pyContains (("elaborat").toList) (pyLower user_query)

/-- `extract_search_query` from PromptFlows/extract_search_query.py.
Note `if last_user_message:` is a Python truthiness test: it is False both
when no user message was found and when the found content is the empty
string. -/
def extract_search_query (user_query : List Char) (chat_history : List ChatMessage) :
    List Char :=
  if chat_history.isEmpty then user_query
  else if needsContext user_query then
    match findLastUser chat_history with
    | some lum => if lum.isEmpty then user_query else lum ++ [' '] ++ user_query
    | none => user_query
  else user_query

/-- `QueryType.SIMPLE` / `QueryType.SEMANTIC` from azure.search.documents. -/
inductive AzQueryType where
  | simple
  | semantic
deriving DecidableEq

/-- A `VectorizedQuery(vector=..., fields=[...], k=...)` object. -/
structure VectorizedQuery where
  vector : Vec
  fields : List (List Char)
  k : Int
deriving DecidableEq

/-- One `search_client.search(...)` call as the client issues it to the
external index: the keyword arguments of the three call sites in
vector_search_client.py. -/
structure SearchRequest where
  searchText : Option (List Char)
  vectorQueries : List VectorizedQuery
  select : List (List Char)
  top : Int
  queryType : Option AzQueryType
  semanticConfigName : Option (List Char)
deriving DecidableEq

/-- The fixed projection list shared by all three strategies. -/
def selectFields : List (List Char) :=
  [("id").toList, ("title").toList, ("content").toList, ("category").toList,
   ("sourceUrl").toList, ("sourceName").toList]

/-- The default of the `semantic_config` parameter of
`VectorSearchClient.semantic_search`. -/
def defaultSemanticConfig : List Char := ("semantic-config").toList

/-- `VectorSearchClient.vector_search` (vector_search_client.py lines
85-118), modelled as the request it dispatches. -/
def vector_search (provider : Provider) (query : List Char) (top : Int)
    (vector_field : List Char := ("contentVector").toList) : SearchRequest :=
  let query_vector := (get_embeddings provider (some query)).vector
  { searchText := none
  , vectorQueries := [⟨query_vector, [vector_field], top⟩]
  , select := selectFields
  , top := top
  , queryType := none
  , semanticConfigName := none }

/-- `VectorSearchClient.hybrid_search` (vector_search_client.py lines
120-154), modelled as the request it dispatches. -/
def hybrid_search (provider : Provider) (query : List Char) (top : Int)
    (vector_field : List Char := ("contentVector").toList) : SearchRequest :=
  let query_vector := (get_embeddings provider (some query)).vector
  { searchText := some query
  , vectorQueries := [⟨query_vector, [vector_field], top⟩]
  , select := selectFields
  , top := top
  , queryType := some .simple
  , semanticConfigName := none }

/-- `VectorSearchClient.semantic_search` (vector_search_client.py lines
156-193), modelled as the request it dispatches.  The Python signature
defaults `semantic_config` to `"semantic-config"`; an omitted argument is
modelled as `none` and resolved to that default exactly as Python's
default-parameter mechanism does. -/
def semantic_search (provider : Provider) (query : List Char) (top : Int)
    (vector_field : List Char := ("contentVector").toList)
    (semantic_config : Option (List Char) := none) : SearchRequest :=
  let query_vector := (get_embeddings provider (some query)).vector
  let cfg := semantic_config.getD defaultSemanticConfig
  { searchText := some query
  , vectorQueries := [⟨query_vector, [vector_field], top * 3⟩]
  , select := selectFields
  , top := top
  , queryType := some .semantic
  , semanticConfigName := some cfg }

/-- The HTTP-visible part of a `/api/search` reply: status code and, for
error replies, the `error` message. -/
structure HandlerReply where
  status : Nat
  errorMsg : Option (List Char)
deriving DecidableEq

/-- The `/api/search` handler of sample_web_app.py (lines 28-85), after
JSON decoding: `query`/`search_type` strings and the already-parsed `top`.
The second component is the request the handler caused the
`VectorSearchClient` to issue against the external index — `none` when the
request was rejected before any search was issued.  No retry construct
exists in the handler; it returns a single reply. -/
def search (provider : Provider) (query search_type : List Char) (top : Int) :
    HandlerReply × Option SearchRequest :=
  if query.isEmpty then (⟨400, some (("Query is required").toList)⟩, none)
  else if search_type = ("vector").toList then
    (⟨200, none⟩, some (vector_search provider query top))
  else if search_type = ("hybrid").toList then
    (⟨200, none⟩, some (hybrid_search provider query top))
  else if search_type = ("semantic").toList then
    (⟨200, none⟩, some (semantic_search provider query top))
  else (⟨400, some (("Invalid search type").toList)⟩, none)

/-- One element of `result.results` from
`search_client.index_documents(...)`: per-document key, success flag and
optional error message. -/
structure DocActionResult where
  key : List Char
  succeeded : Bool
  errorMessage : Option (List Char)
deriving DecidableEq

/-- What one `index_documents` submission can do, as upload_documents.py
observes it: return a (possibly empty) result list, or raise. -/
inductive SubmitResult where
  | ok (results : List DocActionResult)
  | exn (msg : List Char)
deriving DecidableEq

/-- What the loop body of upload_documents.py reports for one batch:
either the per-document outcome of a returned result list, the
`"No results returned"` branch, or the caught batch-level exception. -/
inductive BatchOutcome where
  | reported (succeeded : Nat) (failures : List (List Char × Option (List Char)))
  | noResults
  | failed (errMsg : List Char)
deriving DecidableEq

/-- The report for one batch of the upload loop. -/
structure BatchReport where
  batchIndex : Nat
  attempted : Nat
  outcome : BatchOutcome
deriving DecidableEq

/-- Worker for `chunk100`, structurally recursive on a fuel counter so
that the kernel can evaluate it: each iteration emits one batch (the first
100 elements) and recurses on the rest.  One unit of fuel per batch, and a
batch is only emitted from a non-empty list, so any fuel ≥ the list length
is enough and the `0, _ :: _` fallback is never reached from `chunk100`. -/
def chunk100Go {α : Type} : Nat → List α → List (List α)
  | _, [] => []
  | 0, _ :: _ => []
  | fuel + 1, a :: t => ((a :: t).take 100) :: chunk100Go fuel ((a :: t).drop 100)

/-- The slicing `documents[i : i + 100]` for `i in range(0, len, 100)`
(upload_documents.py lines 45-48, `batch_size = 100`). -/
def chunk100 {α : Type} (l : List α) : List (List α) :=
  chunk100Go l.length l

/-- The body of the upload loop for one batch (upload_documents.py lines
50-74), given the submission's result. -/
def uploadBatchOutcome (r : SubmitResult) : BatchOutcome :=
  match r with
  | .exn m => .failed m
  | .ok [] => .noResults
  | .ok rs =>
    .reported (rs.countP (·.succeeded))
      ((rs.filter (fun d => !d.succeeded)).map (fun d => (d.key, d.errorMessage)))

/-- The `for i in range(0, len(documents), batch_size)` loop of
upload_documents.py, carrying the current batch index (`i // batch_size`).
The `try`/`except` around the body means an exception in one batch is
caught and the loop continues to the next. -/
def uploadLoop {α : Type} (submit : Nat → List α → SubmitResult) :
    Nat → List (List α) → List BatchReport
  | _, [] => []
  | i, b :: rest =>
    ⟨i, b.length, uploadBatchOutcome (submit i b)⟩ :: uploadLoop submit (i + 1) rest

/-- `upload_documents` from upload_documents.py, over an abstract document
type and a submission oracle `submit` (the external index, given the batch
index and the batch).  Returns one report per batch, in batch order. -/
def upload_documents {α : Type} (submit : Nat → List α → SubmitResult)
    (documents : List α) : List BatchReport :=
  uploadLoop submit 0 (chunk100 documents)

/-- A JSON field value as process_documents needs it: the input documents'
fields (strings in every modelled run) and the embedding vectors the step
adds. -/
inductive FieldValue where
  | text (s : List Char)
  | vector (v : Vec)
deriving DecidableEq

/-- A JSON document object: an insertion-ordered dict. -/
abbrev PyDict := List (List Char × FieldValue)

/-- Dict key lookup (first matching key). -/
def pyLookup (d : PyDict) (k : List Char) : Option FieldValue :=
  match d with
  | [] => none
  | (k2, v) :: t => if k2 = k then some v else pyLookup t k

/-- Python `doc[k] = v`: replace in place if the key exists, else append. -/
def pyDictSet (d : PyDict) (k : List Char) (v : FieldValue) : PyDict :=
  if (pyLookup d k).isSome then
    d.map (fun p => if p.1 = k then (k, v) else p)
  else d ++ [(k, v)]

/-- Python `doc.get(k, "")` for a field read as a string.  In every
modelled document the fields read this way hold strings; a vector value
would make the Python `strip()` call raise, which is outside the claims'
scope. -/
def pyDictGetStr (d : PyDict) (k : List Char) : List Char :=
  match pyLookup d k with
  | some (.text s) => s
  | _ => []

/-- The per-document body of `process_documents` (generate_embeddings.py
lines 89-95): embed title and content, then set the two vector fields. -/
def processDoc (provider : Provider) (doc : PyDict) : PyDict :=
  let title_embedding := (get_embeddings provider (some (pyDictGetStr doc (("title").toList)))).vector
  let content_embedding := (get_embeddings provider (some (pyDictGetStr doc (("content").toList)))).vector
  pyDictSet (pyDictSet doc (("titleVector").toList) (.vector title_embedding))
    (("contentVector").toList) (.vector content_embedding)

/-- The document transformation of `process_documents`
(generate_embeddings.py lines 83-95): every document of the loaded array,
in order, with `titleVector`/`contentVector` set. -/
def process_documents (provider : Provider) (documents : List PyDict) : List PyDict :=
  documents.map (processDoc provider)

/-- `pyReplaceGo o old new fuel s`: Python `s.replace(o :: old, new)` for
a non-empty pattern — left-to-right, non-overlapping, all occurrences.
Structurally recursive on a fuel counter so that the kernel can evaluate
it; every step consumes at least one character of `s`, so any fuel ≥ the
length of `s` is enough and the `0, _` fallback is never reached from
`pyReplace`. -/
def pyReplaceGo (o : Char) (old new : List Char) : Nat → List Char → List Char
  | _, [] => []
  | 0, s => s
  | fuel + 1, c :: t =>
    if startsWith (o :: old) (c :: t) then new ++ pyReplaceGo o old new fuel (t.drop old.length)
    else c :: pyReplaceGo o old new fuel t

/-- Python `s.replace(old, new)`.  For an empty pattern CPython inserts
`new` before every character and at the end. -/
def pyReplace (s old new : List Char) : List Char :=
  match old with
  | [] => new ++ (s.map (fun c => c :: new)).flatten
  | o :: rest => pyReplaceGo o rest new s.length s

/-- The output path computation of generate_embeddings.py line 100:
`documents_file.replace('.json', '_with_embeddings.json')`. -/
def outputFileOf (documents_file : List Char) : List Char :=
  pyReplace documents_file ((".json").toList) (("_with_embeddings.json").toList)

/-! ## Helper lemmas -/

/-- If the stripped text is empty, the whole text was whitespace, so the
first guard of `get_embeddings` fires. -/
theorem isEmpty_of_pyStrip_isEmpty {t : List Char} (h : (pyStrip t).isEmpty = false) :
    t.isEmpty = false := by
  cases t with
  | nil => simp [pyStrip] at h
  | cons a t => rfl

/-- `pyTrunc` leaves short texts unchanged. -/
theorem pyTrunc_of_le {t : List Char} (h : t.length ≤ 8000) : pyTrunc t = t := by
  unfold pyTrunc
  split
  · omega
  · rfl

/-- `pyTrunc` cuts long texts to their first 8000 characters. -/
theorem pyTrunc_of_gt {t : List Char} (h : 8000 < t.length) : pyTrunc t = t.take 8000 := by
  unfold pyTrunc
  split
  · rfl
  · omega

/-- §6 contract of the external Embedding Service: every embedding record
it returns has exactly `D` components. -/
def ProviderRespectsDim (p : Provider) : Prop :=
  ∀ s v rest, p s = .ok (v :: rest) → v.length = D

/-! ## Claims about the Embedding Provider Adapter -/

/-- C2: for every text `t`, `embed(t)` has exactly `D = 1536` elements
(given the §6 provider contract on response dimensionality), and for `t`
empty or whitespace-only it is the zero vector of length `D`, returned
without calling the external provider. -/
theorem C2_embed_dim (p : Provider) (t : List Char) (hp : ProviderRespectsDim p) :
    (get_embeddings p (some t)).vector.length = D ∧
    ((pyStrip t).isEmpty = true →
      get_embeddings p (some t) = ⟨zeroVector D, false, none, none⟩) := by
  constructor
  · cases hb : (t.isEmpty || (pyStrip t).isEmpty) with
    | true => simp [get_embeddings, hb, zeroVector]
    | false =>
      rcases hpv : p (pyTrunc t) with data | e
      · cases data with
        | nil => simp [get_embeddings, hb, hpv, zeroVector]
        | cons v rest =>
          simp [get_embeddings, hb, hpv]
          exact hp _ v rest hpv
      · simp [get_embeddings, hb, hpv, zeroVector]
  · intro hs
    have hb : (t.isEmpty || (pyStrip t).isEmpty) = true := by simp [hs]
    simp [get_embeddings, hb]

/-- Witness for C2 at a whitespace-only input and a provider that always
fails (vacuously dimension-respecting). -/
theorem C2_witness :
    (get_embeddings (fun _ => .error []) (some (("   ").toList))).vector.length = D ∧
    ((pyStrip (("   ").toList)).isEmpty = true →
      get_embeddings (fun _ => .error []) (some (("   ").toList))
        = ⟨zeroVector D, false, none, none⟩) :=
  C2_embed_dim (fun _ => .error []) (("   ").toList) (fun _ _ _ h => nomatch h)

/-- C5: for non-whitespace input, the text submitted to the provider is
exactly `pyTrunc t`, which is `t` itself when `len(t) ≤ 8000` and
`t[:8000]` when `len(t) > 8000`. -/
theorem C5_truncation (p : Provider) (t : List Char)
    (h : (pyStrip t).isEmpty = false) :
    ((get_embeddings p (some t)).submitted = some (pyTrunc t)) ∧
    (t.length ≤ 8000 → (get_embeddings p (some t)).submitted = some t) ∧
    (8000 < t.length → (get_embeddings p (some t)).submitted = some (t.take 8000)) := by
  have hb : (t.isEmpty || (pyStrip t).isEmpty) = false := by
    simp [h, isEmpty_of_pyStrip_isEmpty h]
  have hsub : (get_embeddings p (some t)).submitted = some (pyTrunc t) := by
    rcases hpv : p (pyTrunc t) with data | e
    · cases data with
      | nil => simp [get_embeddings, hb, hpv]
      | cons v rest => simp [get_embeddings, hb, hpv]
    · simp [get_embeddings, hb, hpv]
  refine ⟨hsub, fun hle => ?_, fun hgt => ?_⟩
  · rw [hsub, pyTrunc_of_le hle]
  · rw [hsub, pyTrunc_of_gt hgt]

/-- Witness for C5 at a concrete non-whitespace input. -/
theorem C5_witness :
    ((get_embeddings (fun _ => .ok [[1]]) (some (("hello").toList))).submitted
        = some (pyTrunc (("hello").toList))) ∧
    ((("hello").toList).length ≤ 8000 →
      (get_embeddings (fun _ => .ok [[1]]) (some (("hello").toList))).submitted
        = some (("hello").toList)) ∧
    (8000 < (("hello").toList).length →
      (get_embeddings (fun _ => .ok [[1]]) (some (("hello").toList))).submitted
        = some ((("hello").toList).take 8000)) :=
  C5_truncation (fun _ => .ok [[1]]) (("hello").toList) (by decide)

/-- C6: on any provider failure — an exception, or a response whose data
list is empty (the `response.data[0]` IndexError) — `get_embeddings`
returns the zero vector of length `D` and prints a diagnostic containing
the original error message; it never propagates the exception (the model
is a total function). -/
theorem C6_embed_failure (p : Provider) (t : List Char)
    (h : (pyStrip t).isEmpty = false) :
    (∀ e, p (pyTrunc t) = .error e →
        get_embeddings p (some t)
          = ⟨zeroVector D, true, some (pyTrunc t), some (embedErrMsg e)⟩) ∧
    (p (pyTrunc t) = .ok [] →
        get_embeddings p (some t)
          = ⟨zeroVector D, true, some (pyTrunc t), some (embedErrMsg indexErrorMsg)⟩) ∧
    (∀ e, ∃ pre, embedErrMsg e = pre ++ e) := by
  have hb : (t.isEmpty || (pyStrip t).isEmpty) = false := by
    simp [h, isEmpty_of_pyStrip_isEmpty h]
  refine ⟨fun e hpv => ?_, fun hpv => ?_, fun e => ⟨_, rfl⟩⟩
  · simp [get_embeddings, hb, hpv]
  · simp [get_embeddings, hb, hpv]

/-- Witness for C6: a provider raising an exception with message "boom". -/
theorem C6_witness :
    get_embeddings (fun _ => .error (("boom").toList)) (some (("hi").toList))
      = ⟨zeroVector D, true, some (pyTrunc (("hi").toList)),
         some (embedErrMsg (("boom").toList))⟩ :=
  (C6_embed_failure (fun _ => .error (("boom").toList)) (("hi").toList)
    (by decide)).1 (("boom").toList) rfl

/-- C10: a `None` input text returns the zero vector of length `D` without
calling the external provider and without raising, exactly as the empty
string does. -/
theorem C10_none_input (p : Provider) :
    get_embeddings p none = ⟨zeroVector D, false, none, none⟩ ∧
    get_embeddings p none = get_embeddings p (some []) ∧
    (get_embeddings p none).providerCalled = false ∧
    (get_embeddings p none).vector.length = D := by
  refine ⟨rfl, rfl, rfl, ?_⟩
  simp [get_embeddings, zeroVector]

/-! ## Claims about the Query Reformulator -/

/-- C3 counterexample: the needs-context predicate holds for
`"tell me more"`, and the history's most recent (and only) user message
has empty content, so the claim demands `"" + " " + "tell me more"`
(with a leading space) — but the `if last_user_message:` truthiness test
treats the empty content as "not found" and the code returns the query
unchanged. -/
theorem C3_counterexample :
    needsContext (("tell me more").toList) = true ∧
    findLastUser [⟨("user").toList, []⟩] = some [] ∧
    extract_search_query (("tell me more").toList) [⟨("user").toList, []⟩]
      = ("tell me more").toList ∧
    ([] ++ [' '] ++ ("tell me more").toList) ≠ ("tell me more").toList := by
  refine ⟨by decide, by decide, by decide, by decide⟩

/-- C3 (amended): when the history is non-empty, the needs-context
predicate holds, and the most recent user-role message has **non-empty**
content `lum`, the reformulator returns `lum ++ " " ++ userQuery`;
a most recent user message with empty content leaves the query unchanged. -/
theorem C3_reformulate_context (q lum : List Char) (hist : List ChatMessage)
    (hne : hist ≠ []) (hnc : needsContext q = true)
    (hfind : findLastUser hist = some lum) (hlum : lum ≠ []) :
    extract_search_query q hist = lum ++ [' '] ++ q := by
  have h1 : hist.isEmpty = false := by
    cases hist with
    | nil => exact absurd rfl hne
    | cons a t => rfl
  have h2 : lum.isEmpty = false := by
    cases lum with
    | nil => exact absurd rfl hlum
    | cons a t => rfl
  simp [extract_search_query, h1, hnc, hfind, h2]

/-- Witness for C3 on the spec's own example history. -/
theorem C3_witness :
    extract_search_query (("tell me more").toList)
      [⟨("user").toList, ("tell me about X").toList⟩,
       ⟨("assistant").toList, ("...").toList⟩]
      = ("tell me about X").toList ++ [' '] ++ ("tell me more").toList :=
  C3_reformulate_context _ _ _ (by decide) (by decide) (by decide) (by decide)

/-- C7: the reformulator returns the query unchanged when the history is
empty, and also — for any history — when the needs-context predicate is
false. -/
theorem C7_reformulate_id (q : List Char) (hist : List ChatMessage)
    (hcond : hist = [] ∨ needsContext q = false) :
    extract_search_query q hist = q := by
  rcases hcond with rfl | hf
  · rfl
  · unfold extract_search_query
    cases hist with
    | nil => rfl
    | cons a t => simp [hf]

/-- Witness for C7 on the spec's example query (≥ 5 tokens, no "more",
no "elaborat") against a non-empty history. -/
theorem C7_witness :
    extract_search_query (("what is the capital of France and why").toList)
      [⟨("user").toList, ("tell me about X").toList⟩]
      = ("what is the capital of France and why").toList :=
  C7_reformulate_id _ _ (Or.inr (by decide))

/-! ## Claims about the Hybrid Retrieval Engine -/

/-- C1 counterexample: issuing the semantic strategy through the web
handler with the semantic-configuration identifier omitted (the only way
the repository ever calls `semantic_search`) is **not** rejected as a
validation error: the handler replies 200 and a search request is
dispatched to the external index, carrying the Python default
`"semantic-config"` and `k = 5 * 3`. -/
theorem C1_counterexample :
    search (fun _ => .ok [[1]]) (("cloud").toList) (("semantic").toList) 5
      = (⟨200, none⟩,
         some
           { searchText := some (("cloud").toList)
           , vectorQueries := [⟨[1], [("contentVector").toList], 15⟩]
           , select := selectFields
           , top := 5
           , queryType := some .semantic
           , semanticConfigName := some defaultSemanticConfig }) := by
  decide

/-- C1 (amended): every semantic-strategy call issues a vector query with
`k = topK * 3` and a request carrying a named (non-empty) semantic rerank
configuration; a call that omits the identifier falls back to the default
name `"semantic-config"` and the search is issued normally — no validation
error is raised. -/
theorem C1_semantic_request (p : Provider) (q : List Char) (topK : Int)
    (vf : List Char) (cfg : Option (List Char)) :
    ((semantic_search p q topK vf cfg).vectorQueries.map (·.k) = [topK * 3]) ∧
    (semantic_search p q topK vf cfg).queryType = some .semantic ∧
    (semantic_search p q topK vf cfg).semanticConfigName
      = some (cfg.getD defaultSemanticConfig) ∧
    (cfg = none →
      (semantic_search p q topK vf cfg).semanticConfigName
          = some defaultSemanticConfig ∧
        defaultSemanticConfig ≠ []) := by
  refine ⟨rfl, rfl, rfl, ?_⟩
  rintro rfl
  exact ⟨rfl, by decide⟩

/-- Witness for C1 (amended) with `topK = 5` and the identifier omitted. -/
theorem C1_witness :
    ((semantic_search (fun _ => .ok [[1]]) (("cloud").toList) 5
        (("contentVector").toList) none).vectorQueries.map (·.k) = [15]) ∧
    (semantic_search (fun _ => .ok [[1]]) (("cloud").toList) 5
        (("contentVector").toList) none).queryType = some .semantic ∧
    (semantic_search (fun _ => .ok [[1]]) (("cloud").toList) 5
        (("contentVector").toList) none).semanticConfigName
      = some ((none : Option (List Char)).getD defaultSemanticConfig) ∧
    ((none : Option (List Char)) = none →
      (semantic_search (fun _ => .ok [[1]]) (("cloud").toList) 5
          (("contentVector").toList) none).semanticConfigName
          = some defaultSemanticConfig ∧
        defaultSemanticConfig ≠ []) :=
  C1_semantic_request (fun _ => .ok [[1]]) (("cloud").toList) 5
    (("contentVector").toList) none

/-- C8: a `/api/search` request whose strategy is none of
vector/hybrid/semantic is rejected with a 400 validation error carrying an
error message, and no search request is issued against the external index
(the handler has no retry construct). -/
theorem C8_invalid_strategy (p : Provider) (q st : List Char) (top : Int)
    (hst : st ≠ ("vector").toList ∧ st ≠ ("hybrid").toList ∧ st ≠ ("semantic").toList) :
    (search p q st top).1.status = 400 ∧
    (search p q st top).1.errorMsg.isSome = true ∧
    (search p q st top).2 = none := by
  obtain ⟨h1, h2, h3⟩ := hst
  unfold search
  by_cases hq : q.isEmpty
  · simp [hq]
  · simp at h1 h2 h3
    simp [hq, h1, h2, h3]

/-- Witness for C8 at the unknown strategy `"fuzzy"`. -/
theorem C8_witness :
    (search (fun _ => .ok [[1]]) (("hi").toList) (("fuzzy").toList) 5).1.status = 400 ∧
    (search (fun _ => .ok [[1]]) (("hi").toList) (("fuzzy").toList) 5).1.errorMsg.isSome
      = true ∧
    (search (fun _ => .ok [[1]]) (("hi").toList) (("fuzzy").toList) 5).2 = none :=
  C8_invalid_strategy (fun _ => .ok [[1]]) (("hi").toList) (("fuzzy").toList) 5
    ⟨by decide, by decide, by decide⟩

/-! ## Claims about the Batch Ingestion Pipeline -/

/-- `chunk100Go` ignores the empty list whatever the fuel. -/
theorem chunk100Go_nil {α : Type} (f : Nat) : chunk100Go f ([] : List α) = [] := by
  cases f <;> rfl

/-- With enough fuel, `chunk100Go` does not depend on the exact fuel
value. -/
theorem chunk100Go_fuel {α : Type} :
    ∀ (f g : Nat) (l : List α), l.length ≤ f → l.length ≤ g →
      chunk100Go f l = chunk100Go g l
  | _, _, [] => fun _ _ => by rw [chunk100Go_nil, chunk100Go_nil]
  | f + 1, g + 1, a :: t => fun hf hg => by
    simp only [chunk100Go]
    rw [chunk100Go_fuel f g ((a :: t).drop 100)]
    · simp only [List.length_drop, List.length_cons]
      simp only [List.length_cons] at hf
      omega
    · simp only [List.length_drop, List.length_cons]
      simp only [List.length_cons] at hg
      omega
  | 0, _, a :: t => fun hf _ => by simp at hf
  | _ + 1, 0, a :: t => fun _ hg => by simp at hg

/-- Unfolding rule for `chunk100` on a non-empty list: emit the first 100
elements, recurse on the rest. -/
theorem chunk100_cons {α : Type} (a : α) (t : List α) :
    chunk100 (a :: t) = ((a :: t).take 100) :: chunk100 ((a :: t).drop 100) := by
  show chunk100Go (t.length + 1) (a :: t) = _
  simp only [chunk100Go]
  rw [chunk100]
  apply congrArg
  apply chunk100Go_fuel
  · simp only [List.length_drop, List.length_cons]
    omega
  · exact Nat.le_refl _

/-- The batches of `chunk100` concatenate back to the input, in input
order. -/
theorem chunk100_flatten {α : Type} : ∀ l : List α, (chunk100 l).flatten = l
  | [] => by simp [chunk100, chunk100Go]
  | a :: t => by
    rw [chunk100_cons]
    simp only [List.flatten_cons]
    rw [chunk100_flatten ((a :: t).drop 100)]
    exact List.take_append_drop 100 (a :: t)
termination_by l => l.length
decreasing_by
  simp [List.length_drop]
  omega

/-- `chunk100` produces exactly `⌈n / 100⌉` batches. -/
theorem chunk100_length {α : Type} : ∀ l : List α, (chunk100 l).length = (l.length + 99) / 100
  | [] => by simp [chunk100, chunk100Go]
  | a :: t => by
    rw [chunk100_cons]
    simp only [List.length_cons]
    rw [chunk100_length ((a :: t).drop 100)]
    simp only [List.length_drop, List.length_cons]
    omega
termination_by l => l.length
decreasing_by
  simp [List.length_drop]
  omega

/-- Every batch of `chunk100` is non-empty and holds at most 100
documents. -/
theorem chunk100_mem_length {α : Type} :
    ∀ l : List α, ∀ c ∈ chunk100 l, 0 < c.length ∧ c.length ≤ 100
  | [] => by simp [chunk100, chunk100Go]
  | a :: t => by
    rw [chunk100_cons]
    intro c hc
    rcases List.mem_cons.1 hc with rfl | hm
    · simp only [List.length_take, List.length_cons]
      omega
    · exact chunk100_mem_length ((a :: t).drop 100) c hm
termination_by l => l.length
decreasing_by
  simp [List.length_drop]
  omega

/-- Every batch of `chunk100` except possibly the last holds exactly 100
documents. -/
theorem chunk100_inner_full {α : Type} :
    ∀ (l : List α) (i : Nat), i + 1 < (chunk100 l).length →
      ((chunk100 l).map List.length).getD i 0 = 100
  | [], i => by simp [chunk100, chunk100Go]
  | a :: t, 0 => by
    rw [chunk100_cons]
    intro h
    simp only [List.length_cons] at h
    have hd : (chunk100 ((a :: t).drop 100)).length ≠ 0 := by omega
    have hd2 : (a :: t).drop 100 ≠ [] := by
      intro he
      rw [he] at hd
      simp [chunk100, chunk100Go] at hd
    have hlen : 100 < (a :: t).length := by
      by_contra hle
      push_neg at hle
      exact hd2 (List.drop_eq_nil_of_le hle)
    simp only [List.map_cons, List.getD_cons_zero, List.length_take]
    omega
  | a :: t, i + 1 => by
    rw [chunk100_cons]
    intro h
    simp only [List.length_cons] at h
    have := chunk100_inner_full ((a :: t).drop 100) i (by omega)
    simpa using this
termination_by l _ => l.length
decreasing_by
  all_goals simp [List.length_drop]
  all_goals omega

/-- The upload loop reports, for each batch, exactly the batch's size as
the attempted count. -/
theorem uploadLoop_map_attempted {α : Type} (submit : Nat → List α → SubmitResult) :
    ∀ (i : Nat) (bs : List (List α)),
      (uploadLoop submit i bs).map (·.attempted) = bs.map List.length := by
  intro i bs
  induction bs generalizing i with
  | nil => rfl
  | cons b rest ih => simp [uploadLoop, ih]

/-- The upload loop reports every batch exactly once. -/
theorem uploadLoop_length {α : Type} (submit : Nat → List α → SubmitResult) :
    ∀ (i : Nat) (bs : List (List α)), (uploadLoop submit i bs).length = bs.length := by
  intro i bs
  induction bs generalizing i with
  | nil => rfl
  | cons b rest ih => simp [uploadLoop, ih]

/-- The upload loop numbers its reports consecutively from the starting
index. -/
theorem uploadLoop_map_index {α : Type} (submit : Nat → List α → SubmitResult) :
    ∀ (i : Nat) (bs : List (List α)),
      (uploadLoop submit i bs).map (·.batchIndex) = List.range' i bs.length := by
  intro i bs
  induction bs generalizing i with
  | nil => rfl
  | cons b rest ih => simp [uploadLoop, ih, List.range'_succ]

/-- Which batches get attempted, and with how many documents, does not
depend on how submissions turn out: every batch after a throwing one is
still attempted and reported. -/
theorem uploadLoop_indep {α : Type} (submit submit2 : Nat → List α → SubmitResult) :
    ∀ (i : Nat) (bs : List (List α)),
      (uploadLoop submit i bs).map (fun r => (r.batchIndex, r.attempted))
        = (uploadLoop submit2 i bs).map (fun r => (r.batchIndex, r.attempted)) := by
  intro i bs
  induction bs generalizing i with
  | nil => rfl
  | cons b rest ih => simp [uploadLoop, ih]

/-- C4: ingestion slices the input, in order, into `⌈n / 100⌉` batches —
all of exactly 100 documents except a shorter non-empty final batch — and
the reported attempted counts, batch indices and batch count are the same
whatever the submission oracle does, so an exception while submitting one
batch never prevents a later batch from being attempted and reported. -/
theorem C4_upload_batches {α : Type} (documents : List α)
    (submit submit2 : Nat → List α → SubmitResult) :
    ((upload_documents submit documents).map (·.attempted)
        = (chunk100 documents).map List.length) ∧
    (chunk100 documents).flatten = documents ∧
    (upload_documents submit documents).length = (documents.length + 99) / 100 ∧
    (∀ r ∈ upload_documents submit documents, 0 < r.attempted ∧ r.attempted ≤ 100) ∧
    (∀ i, i + 1 < (upload_documents submit documents).length →
        ((upload_documents submit documents).map (·.attempted)).getD i 0 = 100) ∧
    ((upload_documents submit documents).map (·.batchIndex)
        = List.range (chunk100 documents).length) ∧
    ((upload_documents submit documents).map (fun r => (r.batchIndex, r.attempted))
        = (upload_documents submit2 documents).map (fun r => (r.batchIndex, r.attempted))) := by
  refine ⟨uploadLoop_map_attempted submit 0 _, chunk100_flatten documents, ?_, ?_, ?_, ?_,
    uploadLoop_indep submit submit2 0 _⟩
  · rw [upload_documents, uploadLoop_length, chunk100_length]
  · intro r hr
    have hmem : r.attempted ∈ (upload_documents submit documents).map (·.attempted) :=
      List.mem_map_of_mem _ hr
    rw [upload_documents, uploadLoop_map_attempted] at hmem
    rcases List.mem_map.1 hmem with ⟨c, hc, hlen⟩
    rw [← hlen]
    exact chunk100_mem_length documents c hc
  · intro i hi
    rw [upload_documents, uploadLoop_length] at hi
    rw [upload_documents, uploadLoop_map_attempted]
    exact chunk100_inner_full documents i hi
  · rw [upload_documents, uploadLoop_map_index, List.range_eq_range']

set_option maxRecDepth 100000 in
/-- Witness for C4: 250 documents against an index whose submission throws
on batch index 1 (the second batch) and succeeds for every document
otherwise — three reports with attempted counts `[100, 100, 50]`, batch 2
still attempted and correct, and the attempted structure identical to an
all-succeeding run. -/
theorem C4_witness :
    ((upload_documents
        (fun i b => if i = 1 then .exn (("network down").toList)
          else .ok (b.map (fun _ => ⟨("d").toList, true, none⟩)))
        (List.replicate 250 (0 : Nat))).map (·.attempted) = [100, 100, 50]) ∧
    ((upload_documents
        (fun i b => if i = 1 then .exn (("network down").toList)
          else .ok (b.map (fun _ => ⟨("d").toList, true, none⟩)))
        (List.replicate 250 (0 : Nat))).map
          (fun r => (r.batchIndex, r.attempted, r.outcome))
      = [(0, 100, .reported 100 []),
         (1, 100, .failed (("network down").toList)),
         (2, 50, .reported 50 [])]) ∧
    ((upload_documents
        (fun i b => if i = 1 then .exn (("network down").toList)
          else .ok (b.map (fun _ => ⟨("d").toList, true, none⟩)))
        (List.replicate 250 (0 : Nat))).map (fun r => (r.batchIndex, r.attempted))
      = (upload_documents
          (fun _ b => .ok (b.map (fun _ => ⟨("d").toList, true, none⟩)))
          (List.replicate 250 (0 : Nat))).map (fun r => (r.batchIndex, r.attempted))) := by
  refine ⟨by decide, by decide, ?_⟩
  exact (C4_upload_batches (List.replicate 250 (0 : Nat))
    (fun i b => if i = 1 then .exn (("network down").toList)
      else .ok (b.map (fun _ => ⟨("d").toList, true, none⟩)))
    (fun _ b => .ok (b.map (fun _ => ⟨("d").toList, true, none⟩)))).2.2.2.2.2.2

/-! ## Claims about the offline embedding batch step -/

/-- Unfolding rule for `pyLookup` on the empty dict. -/
theorem pyLookup_nil (q : List Char) : pyLookup [] q = none := rfl

/-- Unfolding rule for `pyLookup` on a non-empty dict. -/
theorem pyLookup_cons (k2 : List Char) (v2 : FieldValue) (t : PyDict) (q : List Char) :
    pyLookup ((k2, v2) :: t) q = if k2 = q then some v2 else pyLookup t q := rfl

/-- In-place replacement of the value at key `k` does not disturb lookups
of any other key `q`. -/
theorem pyLookup_map_set (d : PyDict) (k q : List Char) (v : FieldValue)
    (h : q ≠ k) :
    pyLookup (d.map (fun p => if p.1 = k then (k, v) else p)) q = pyLookup d q := by
  have hk : ¬ (k = q) := fun hh => h hh.symm
  induction d with
  | nil => rfl
  | cons a t ih =>
    obtain ⟨a1, a2⟩ := a
    simp only [List.map_cons]
    split
    case isTrue hc =>
      have hc2 : a1 = k := hc
      subst hc2
      rw [pyLookup_cons, pyLookup_cons, if_neg hk, if_neg hk]
      exact ih
    case isFalse hc =>
      rw [pyLookup_cons, pyLookup_cons]
      by_cases hq : a1 = q
      · rw [if_pos hq, if_pos hq]
      · rw [if_neg hq, if_neg hq]
        exact ih

/-- Appending an entry for key `k` does not disturb lookups of other
keys. -/
theorem pyLookup_append_ne (d : PyDict) (k q : List Char) (v : FieldValue)
    (h : q ≠ k) : pyLookup (d ++ [(k, v)]) q = pyLookup d q := by
  have hk : ¬ (k = q) := fun hh => h hh.symm
  induction d with
  | nil =>
    simp only [List.nil_append]
    rw [pyLookup_cons, if_neg hk, pyLookup_nil]
  | cons a t ih =>
    obtain ⟨a1, a2⟩ := a
    simp only [List.cons_append]
    rw [pyLookup_cons, pyLookup_cons]
    by_cases hq : a1 = q
    · rw [if_pos hq, if_pos hq]
    · rw [if_neg hq, if_neg hq]
      exact ih

/-- Setting key `k` does not disturb lookups of any other key `q`. -/
theorem pyLookup_pyDictSet_ne (d : PyDict) (k q : List Char) (v : FieldValue)
    (h : q ≠ k) : pyLookup (pyDictSet d k v) q = pyLookup d q := by
  unfold pyDictSet
  split
  · exact pyLookup_map_set d k q v h
  · exact pyLookup_append_ne d k q v h

/-- In-place replacement at a present key `k` makes lookups of `k` return
the new value. -/
theorem pyLookup_map_set_self (d : PyDict) (k : List Char) (v : FieldValue)
    (hs : (pyLookup d k).isSome = true) :
    pyLookup (d.map (fun p => if p.1 = k then (k, v) else p)) k = some v := by
  induction d with
  | nil => simp [pyLookup_nil] at hs
  | cons a t ih =>
    obtain ⟨a1, a2⟩ := a
    simp only [List.map_cons]
    split
    case isTrue hc =>
      have hc2 : a1 = k := hc
      subst hc2
      rw [pyLookup_cons, if_pos rfl]
    case isFalse hc =>
      have hc2 : ¬ (a1 = k) := hc
      rw [pyLookup_cons, if_neg hc2]
      apply ih
      rw [pyLookup_cons, if_neg hc2] at hs
      exact hs

/-- Appending an entry for an absent key `k` makes lookups of `k` return
the new value. -/
theorem pyLookup_append_self (d : PyDict) (k : List Char) (v : FieldValue)
    (h : pyLookup d k = none) : pyLookup (d ++ [(k, v)]) k = some v := by
  induction d with
  | nil =>
    simp only [List.nil_append]
    rw [pyLookup_cons, if_pos rfl]
  | cons a t ih =>
    obtain ⟨a1, a2⟩ := a
    by_cases ha : a1 = k
    · rw [pyLookup_cons, if_pos ha] at h
      simp at h
    · simp only [List.cons_append]
      rw [pyLookup_cons, if_neg ha]
      apply ih
      rw [pyLookup_cons, if_neg ha] at h
      exact h

/-- After setting key `k`, looking up `k` yields the new value. -/
theorem pyLookup_pyDictSet_self (d : PyDict) (k : List Char) (v : FieldValue) :
    pyLookup (pyDictSet d k v) k = some v := by
  unfold pyDictSet
  split
  case isTrue hs => exact pyLookup_map_set_self d k v hs
  case isFalse hs =>
    apply pyLookup_append_self
    cases hl : pyLookup d k with
    | none => rfl
    | some w => rw [hl] at hs; simp at hs

/-- Setting an absent key appends it at the end of the dict. -/
theorem pyDictSet_append_of_absent (d : PyDict) (k : List Char) (v : FieldValue)
    (h : pyLookup d k = none) : pyDictSet d k v = d ++ [(k, v)] := by
  simp [pyDictSet, h]

/-- A processed document agrees with the input document on every field
other than `titleVector` and `contentVector`. -/
theorem processDoc_frame (p : Provider) (doc : PyDict) (q : List Char)
    (h1 : q ≠ ("titleVector").toList) (h2 : q ≠ ("contentVector").toList) :
    pyLookup (processDoc p doc) q = pyLookup doc q := by
  simp only [processDoc]
  rw [pyLookup_pyDictSet_ne _ _ _ _ h2, pyLookup_pyDictSet_ne _ _ _ _ h1]

/-- A processed document carries the embeddings of its `title` and
`content` fields under `titleVector` and `contentVector`. -/
theorem processDoc_vectors (p : Provider) (doc : PyDict) :
    pyLookup (processDoc p doc) (("titleVector").toList)
      = some (.vector (get_embeddings p (some (pyDictGetStr doc (("title").toList)))).vector) ∧
    pyLookup (processDoc p doc) (("contentVector").toList)
      = some (.vector (get_embeddings p (some (pyDictGetStr doc (("content").toList)))).vector) := by
  constructor
  · simp only [processDoc]
    rw [pyLookup_pyDictSet_ne _ _ _ _ (by decide), pyLookup_pyDictSet_self]
  · simp only [processDoc]
    rw [pyLookup_pyDictSet_self]

/-- When neither vector field pre-exists, processing appends exactly the
two new fields at the end of the document, in order. -/
theorem processDoc_append (p : Provider) (doc : PyDict)
    (h1 : pyLookup doc (("titleVector").toList) = none)
    (h2 : pyLookup doc (("contentVector").toList) = none) :
    processDoc p doc
      = doc ++
        [((("titleVector").toList),
            .vector (get_embeddings p (some (pyDictGetStr doc (("title").toList)))).vector),
         ((("contentVector").toList),
            .vector (get_embeddings p (some (pyDictGetStr doc (("content").toList)))).vector)] := by
  simp only [processDoc]
  rw [pyDictSet_append_of_absent _ _ _ h1]
  rw [pyDictSet_append_of_absent]
  · rw [List.append_assoc]
    rfl
  · rw [pyLookup_append_ne _ _ _ _ (by decide)]
    exact h2

set_option maxRecDepth 100000 in
/-- C9 counterexample: for an input document that already carries a
`titleVector` field, the offline step does **not** leave that pre-existing
field unchanged (nor add it as a new field): `doc["titleVector"] = ...`
overwrites it in place. -/
theorem C9_counterexample :
    pyLookup
        ((process_documents (fun _ => .ok [[1]])
            [[((("title").toList), FieldValue.text (("a").toList)),
              ((("titleVector").toList), FieldValue.text (("x").toList))]]).getD 0 [])
        (("titleVector").toList)
      = some (FieldValue.vector [1]) ∧
    pyLookup [((("title").toList), FieldValue.text (("a").toList)),
              ((("titleVector").toList), FieldValue.text (("x").toList))]
        (("titleVector").toList)
      = some (FieldValue.text (("x").toList)) ∧
    FieldValue.vector [1] ≠ FieldValue.text (("x").toList) := by
  refine ⟨by decide, by decide, by decide⟩

/-- C9 (amended): the offline embedding step maps the input array in
order, one output document per input document; each output document holds
`titleVector`/`contentVector` set to the embeddings of its `title` and
`content` fields (overwriting any pre-existing value of those two keys),
agrees with the input document on every other field, and — whenever
neither vector field pre-exists — equals the input document with exactly
the two new fields appended; the result is written to a sibling file whose
name derives from the input file name by replacing `.json` with
`_with_embeddings.json`. -/
theorem C9_process_documents (p : Provider) (docs : List PyDict) :
    (process_documents p docs).length = docs.length ∧
    (∀ i, i < docs.length →
        (process_documents p docs).getD i [] = processDoc p (docs.getD i [])) ∧
    (∀ doc ∈ docs, ∀ q, q ≠ ("titleVector").toList → q ≠ ("contentVector").toList →
        pyLookup (processDoc p doc) q = pyLookup doc q) ∧
    (∀ doc ∈ docs,
        pyLookup (processDoc p doc) (("titleVector").toList)
          = some (.vector (get_embeddings p (some (pyDictGetStr doc (("title").toList)))).vector) ∧
        pyLookup (processDoc p doc) (("contentVector").toList)
          = some (.vector (get_embeddings p (some (pyDictGetStr doc (("content").toList)))).vector)) ∧
    (∀ doc ∈ docs, pyLookup doc (("titleVector").toList) = none →
        pyLookup doc (("contentVector").toList) = none →
        processDoc p doc
          = doc ++
            [((("titleVector").toList),
                .vector (get_embeddings p (some (pyDictGetStr doc (("title").toList)))).vector),
             ((("contentVector").toList),
                .vector (get_embeddings p (some (pyDictGetStr doc (("content").toList)))).vector)]) ∧
    outputFileOf (("documents.json").toList) = ("documents_with_embeddings.json").toList := by
  refine ⟨by simp [process_documents], ?_, ?_, ?_, ?_, by decide⟩
  · intro i hi
    have hl : i < (docs.map (processDoc p)).length := by simpa using hi
    show (docs.map (processDoc p)).getD i [] = processDoc p (docs.getD i [])
    rw [List.getD_eq_getElem _ _ hl, List.getD_eq_getElem _ _ hi, List.getElem_map]
  · intro doc _ q h1 h2
    exact processDoc_frame p doc q h1 h2
  · intro doc _
    exact processDoc_vectors p doc
  · intro doc _ h1 h2
    exact processDoc_append p doc h1 h2

set_option maxRecDepth 100000 in
/-- Witness for C9 (amended) on a one-document array without pre-existing
vector fields. -/
theorem C9_witness :
    process_documents (fun _ => .ok [[1]])
      [[((("title").toList), FieldValue.text (("a").toList)),
        ((("content").toList), FieldValue.text (("b").toList))]]
      = [[((("title").toList), FieldValue.text (("a").toList)),
          ((("content").toList), FieldValue.text (("b").toList)),
          ((("titleVector").toList), FieldValue.vector [1]),
          ((("contentVector").toList), FieldValue.vector [1])]] := by
  have h := (C9_process_documents (fun _ => .ok [[1]])
      [[((("title").toList), FieldValue.text (("a").toList)),
        ((("content").toList), FieldValue.text (("b").toList))]]).2.2.2.2.1
    [((("title").toList), FieldValue.text (("a").toList)),
     ((("content").toList), FieldValue.text (("b").toList))]
    (List.mem_singleton.mpr rfl) (by decide) (by decide)
  show [processDoc (fun _ => .ok [[1]])
      [((("title").toList), FieldValue.text (("a").toList)),
       ((("content").toList), FieldValue.text (("b").toList))]] = _
  rw [h]
  decide
